import Mathlib

/-!
Shallow embedding of the physics core of the Javascript-Parkour repository.

Numbers are embedded as rationals.  The source calls `Math.sqrt` (directly and
through `Vector3.length` / `Vector3.normalize`); since exact square roots do
not exist inside `ℚ`, every embedded function that needs a square root takes a
parameter `s : ℚ → ℚ` standing for `Math.sqrt`, and theorems that depend on
square-root correctness assume it pointwise (`SqrtOn`).  The concrete function
`sqrtA` below computes the exact square root on perfect rational squares and is
used to evaluate the embedding on concrete inputs.
-/

/-- Exactness of a square-root oracle `s` at the single point `x`. -/
def SqrtOn (s : ℚ → ℚ) (x : ℚ) : Prop :=
  0 ≤ s x ∧ s x * s x = x

instance (s : ℚ → ℚ) (x : ℚ) : Decidable (SqrtOn s x) := by
  unfold SqrtOn; infer_instance

/-- Concrete square-root oracle: exact on perfect rational squares
(numerator and denominator both perfect squares). -/
def sqrtA (x : ℚ) : ℚ :=
  (Nat.sqrt x.num.natAbs : ℚ) / (Nat.sqrt x.den : ℚ)

/-- Embedding of `Math.sign`. -/
def msign (x : ℚ) : ℚ :=
  if 0 < x then 1 else if x < 0 then -1 else 0

/-- Planar vector; the source uses `THREE.Vector3` with `z = 0` throughout the
physics, so only the x and y components are modelled. -/
@[ext]
structure Vec2 where
  x : ℚ
  y : ℚ
deriving DecidableEq

def Vec2.add (a b : Vec2) : Vec2 := ⟨a.x + b.x, a.y + b.y⟩

instance : Add Vec2 := ⟨Vec2.add⟩

/-- Embedding of `Vector3.multiplyScalar`. -/
def Vec2.smul (v : Vec2) (c : ℚ) : Vec2 := ⟨v.x * c, v.y * c⟩

/-- Embedding of `Vector3.divideScalar`. -/
def Vec2.divScalar (v : Vec2) (c : ℚ) : Vec2 := ⟨v.x / c, v.y / c⟩

/-- Embedding of `Vector3.dot` (z components are zero). -/
def Vec2.dot (a b : Vec2) : ℚ := a.x * b.x + a.y * b.y

/-- Embedding of `Vector3.length`, relative to the square-root oracle `s`. -/
def Vec2.length (s : ℚ → ℚ) (v : Vec2) : ℚ := s (v.x * v.x + v.y * v.y)

/-- Embedding of `Vector3.normalize`: THREE.js divides by `length() || 1`,
so a zero-length vector is left unchanged. -/
def Vec2.normalize (s : ℚ → ℚ) (v : Vec2) : Vec2 :=
  let l := Vec2.length s v
  let d := if l = 0 then 1 else l
  ⟨v.x / d, v.y / d⟩

/-- Surface query result, as produced by `getSurfaceInfo` in obstacles.js and
(with `height`,`normal` only, the other fields added by `handleCollisions`)
by `getTerrainInfo` in terrain.js.  The diagnostic `obstacleId` field is not
modelled. -/
structure SurfaceInfo where
  height : ℚ
  normal : Vec2
  penetrationDepth : ℚ
  isVertical : Bool
  allowGrounded : Bool
deriving DecidableEq

/-- Axis-aligned box obstacle: center position, width, height
(id, mesh and type tag are irrelevant to the physics and not modelled). -/
structure Obstacle where
  position : Vec2
  width : ℚ
  height : ℚ
deriving DecidableEq

/-- Closest point of the box to the query point, by clamping the query point
to the box extent; this is the `closestX`/`closestY` computation shared by
both variants of `getSurfaceInfo`. -/
def closestPoint (o : Obstacle) (px py : ℚ) : Vec2 :=
  ⟨max (o.position.x - o.width / 2) (min px (o.position.x + o.width / 2)),
   max (o.position.y - o.height / 2) (min py (o.position.y + o.height / 2))⟩

/-- Squared distance from a query point to a box (distance to the clamped
closest point); used to state the overlap-removal invariant. -/
def boxDistSq (o : Obstacle) (q : Vec2) : ℚ :=
  let c := closestPoint o q.x q.y
  (q.x - c.x) * (q.x - c.x) + (q.y - c.y) * (q.y - c.y)

namespace Obstacles

/-- Embedding of `getSurfaceInfo` from src/obstacles.js (lines 93-146):
closest-point collision test, but the returned normal is snapped to a box
face axis by comparing `abs contactDx` with `abs contactDy`. -/
def getSurfaceInfo (s : ℚ → ℚ) (o : Obstacle) (playerX playerY playerRadius : ℚ) :
    Option SurfaceInfo :=
  let halfWidth := o.width / 2
  let halfHeight := o.height / 2
  let closest := closestPoint o playerX playerY
  let contactDx := playerX - closest.x
  let contactDy := playerY - closest.y
  let distanceSquared := contactDx * contactDx + contactDy * contactDy
  let groundTolerance : ℚ := 1
  if distanceSquared > (playerRadius + groundTolerance) * (playerRadius + groundTolerance) then
    none
  else
    let penetrationDepth := playerRadius - s distanceSquared
    let normal : Vec2 :=
      if abs contactDx > abs contactDy then ⟨msign contactDx, 0⟩ else ⟨0, msign contactDy⟩
    let surfaceHeight :=
      if abs contactDx > abs contactDy then
        (if playerY > o.position.y then o.position.y + halfHeight + playerRadius
         else o.position.y - halfHeight - playerRadius)
      else
        (if 0 < normal.y then o.position.y + halfHeight else o.position.y - halfHeight)
    some { height := surfaceHeight, normal := normal, penetrationDepth := penetrationDepth,
           isVertical := abs normal.x > abs normal.y, allowGrounded := true }

/-- Loop body and accumulator of `findObstacleSurfaceAt`: the running best is
replaced when a colliding obstacle has strictly smaller penetration depth
(the JS starts from `minDistance = Infinity`, modelled by the `none` case). -/
def findAux (s : ℚ → ℚ) (x y radius : ℚ) : List Obstacle → Option SurfaceInfo → Option SurfaceInfo
  | [], best => best
  | o :: rest, best =>
      let si? := getSurfaceInfo s o x y radius
      let best' :=
        match si?, best with
        | some si, none => some si
        | some si, some b => if si.penetrationDepth < b.penetrationDepth then some si else some b
        | none, b => b
      findAux s x y radius rest best'

/-- Embedding of `findObstacleSurfaceAt` from src/obstacles.js (lines 238-261). -/
def findObstacleSurfaceAt (s : ℚ → ℚ) (obstacles : List Obstacle) (x y radius : ℚ) :
    Option SurfaceInfo :=
  findAux s x y radius obstacles none

end Obstacles

namespace Part008

/-- Embedding of `getSurfaceInfo` from src/unnamed/part_008: same closest-point
test (with tolerance 0.1), but the normal is the contact vector normalized,
falling back to (0,1) when the contact distance is below 0.0001. -/
def getSurfaceInfo (s : ℚ → ℚ) (o : Obstacle) (playerX playerY playerRadius : ℚ) :
    Option SurfaceInfo :=
  let closest := closestPoint o playerX playerY
  let contactDx := playerX - closest.x
  let contactDy := playerY - closest.y
  let contactDistanceSquared := contactDx * contactDx + contactDy * contactDy
  let contactDistance := s contactDistanceSquared
  let contactTolerance : ℚ := 1 / 10
  if contactDistance > playerRadius + contactTolerance then
    none
  else
    let penetrationDepth := playerRadius - contactDistance
    let normal : Vec2 :=
      if contactDistance < 1 / 10000 then ⟨0, 1⟩
      else ⟨contactDx / contactDistance, contactDy / contactDistance⟩
    some { height := contactDistance, normal := normal, penetrationDepth := penetrationDepth,
           isVertical := abs normal.x > abs normal.y, allowGrounded := true }

end Part008

/-- Height and normal returned by a terrain query. -/
structure TerrainInfo where
  height : ℚ
  normal : Vec2
deriving DecidableEq

namespace Terrain

/-- Embedding of the segment scan in `getTerrainInfo`: the first index `i`
with `points[i].x <= x < points[i+1].x`; the JS loop leaves `segment = 0`
when no index matches, modelled by `Option` plus `getD 0` at the call site. -/
def findSegmentIdx (x : ℚ) : List Vec2 → Option Nat
  | p1 :: p2 :: rest =>
      if p1.x ≤ x ∧ x < p2.x then some 0
      else (findSegmentIdx x (p2 :: rest)).map (· + 1)
  | _ => none

/-- Embedding of `getTerrainInfo` from the terrain module (src/unnamed/part_002):
edge clamping for x strictly outside the sample range, otherwise linear
interpolation over the segment found by the scan (defaulting to segment 0). -/
def getTerrainInfo (s : ℚ → ℚ) (x : ℚ) (points : List Vec2) : TerrainInfo :=
  let p0 := points.getD 0 ⟨0, 0⟩
  let pLast := points.getD (points.length - 1) ⟨0, 0⟩
  if x < p0.x then
    { height := p0.y, normal := ⟨0, 1⟩ }
  else if x > pLast.x then
    { height := pLast.y, normal := ⟨0, 1⟩ }
  else
    let segment := (findSegmentIdx x points).getD 0
    let p1 := points.getD segment ⟨0, 0⟩
    let p2 := points.getD (segment + 1) ⟨0, 0⟩
    let t := (x - p1.x) / (p2.x - p1.x)
    let dx := p2.x - p1.x
    let dy := p2.y - p1.y
    { height := p1.y + t * (p2.y - p1.y), normal := Vec2.normalize s ⟨-dy, dx⟩ }

end Terrain

/-- The immutable physics properties installed on the player object by
`createPlayer` in src/player.js; parametrized so that the claims about
general restitution values can be stated. -/
structure PlayerProps where
  radius : ℚ
  mass : ℚ
  momentOfInertia : ℚ
  gravityScale : ℚ
  coefficientOfFriction : ℚ
  coefficientOfRestitution : ℚ
  airResistanceCoefficient : ℚ
  groundResistanceCoefficient : ℚ
  angularAirResistanceCoefficient : ℚ
  inputTorqueMagnitude : ℚ
  airControlForce : ℚ
  airControlDistribution : ℚ
  jumpForce : ℚ
  groundTolerance : ℚ
deriving DecidableEq

/-- The concrete property values set by `createPlayer` in src/player.js,
including the solid-sphere moment of inertia computed after construction. -/
def playerProps : PlayerProps :=
  { radius := 10
    mass := 1
    momentOfInertia := (2/5) * 1 * 10 * 10
    gravityScale := 15
    coefficientOfFriction := 10
    coefficientOfRestitution := 3/10
    airResistanceCoefficient := 1/1000
    groundResistanceCoefficient := 8/1000
    angularAirResistanceCoefficient := 4/100
    inputTorqueMagnitude := 3000
    airControlForce := 1200
    airControlDistribution := 7/10
    jumpForce := 7000
    groundTolerance := 1 }

/-- Input snapshot of the keys read by the physics (a, d, w). -/
structure Keys where
  a : Bool
  d : Bool
  w : Bool
deriving DecidableEq

/-- Mutable per-tick state of the player: position, velocities, rotation,
grounded flag and the current-surface back reference. -/
@[ext]
structure PlayerState where
  position : Vec2
  linearVelocity : Vec2
  angularVelocityZ : ℚ
  rotationZ : ℚ
  isGrounded : Bool
  currentSurface : Option SurfaceInfo
deriving DecidableEq

/-- The world as the player sees it: terrain sample points plus the
obstacle list attached to the ground object by main.js. -/
structure Ground where
  points : List Vec2
  obstacles : List Obstacle
deriving DecidableEq

namespace Player

/-- Embedding of `calculateAirControl` (src/player.js lines 110-129). -/
def calculateAirControl (p : PlayerProps) (keys : Keys) : Vec2 :=
  let controlDirection : ℚ := (if keys.a then -1 else 0) + (if keys.d then 1 else 0)
  if controlDirection ≠ 0 then
    let linearControlFactor := 1 - p.airControlDistribution
    ⟨controlDirection * p.airControlForce * linearControlFactor, 0⟩
  else ⟨0, 0⟩

/-- Embedding of `applyForces` (src/player.js lines 72-108): returns the
accumulated force and the state after the jump branch (which clears
`isGrounded` and `currentSurface` when it fires). -/
def applyForces (p : PlayerProps) (s : ℚ → ℚ) (keys : Keys) (st : PlayerState) :
    Vec2 × PlayerState :=
  let forces : Vec2 := ⟨0, -(49/5) * p.gravityScale * p.mass⟩
  let airResistance :=
    st.linearVelocity.smul (-p.airResistanceCoefficient * Vec2.length s st.linearVelocity)
  let forces := forces + airResistance
  let forces :=
    if st.isGrounded then
      forces + st.linearVelocity.smul
        (-p.groundResistanceCoefficient * Vec2.length s st.linearVelocity)
    else
      forces + calculateAirControl p keys
  if keys.w ∧ st.isGrounded then
    match st.currentSurface with
    | some cs =>
        (forces + cs.normal.smul (p.jumpForce * p.mass),
         { st with isGrounded := false, currentSurface := none })
    | none => (forces, st)
  else (forces, st)

/-- Embedding of `applyTorque` (src/player.js lines 131-159): the z torque. -/
def applyTorque (p : PlayerProps) (keys : Keys) (st : PlayerState) : ℚ :=
  let controlDirection : ℚ := (if keys.a then -1 else 0) + (if keys.d then 1 else 0)
  let t : ℚ :=
    if controlDirection ≠ 0 then
      let torqueMagnitude :=
        if st.isGrounded then p.inputTorqueMagnitude
        else p.inputTorqueMagnitude * p.airControlDistribution
      controlDirection * torqueMagnitude
    else 0
  if st.isGrounded then t
  else
    t + (-p.angularAirResistanceCoefficient * st.angularVelocityZ *
          abs st.angularVelocityZ) * p.momentOfInertia

/-- Embedding of `integrateMotion` (src/player.js lines 161-176): semi-implicit
Euler update of velocity, angular velocity and rotation.  The predicted
position returned by the source is recomputed identically inside
`handleCollisions`, so it is not returned here. -/
def integrateMotion (p : PlayerProps) (forces : Vec2) (inputTorqueZ dt : ℚ)
    (st : PlayerState) : PlayerState :=
  let linearAcceleration := forces.divScalar p.mass
  let angularAcceleration := inputTorqueZ / p.momentOfInertia
  let v := st.linearVelocity + linearAcceleration.smul dt
  let w := st.angularVelocityZ + angularAcceleration * dt
  let rot := st.rotationZ - w * dt
  { st with linearVelocity := v, angularVelocityZ := w, rotationZ := rot }

/-- The normal-impulse fragment that appears verbatim both in
`handleObstacleOrTerrainCollision` (lines 250-259) and at the end of
`applyRollingPhysics` (lines 285-291): bounce only when moving into the
surface. -/
def applyNormalImpulse (p : PlayerProps) (normal v : Vec2) : Vec2 :=
  let normalVelocity := v.dot normal
  if normalVelocity < 0 then
    let normalImpulse := -(1 + p.coefficientOfRestitution) * normalVelocity * p.mass
    v + normal.smul (normalImpulse / p.mass)
  else v

/-- Embedding of `applyRollingPhysics` (src/player.js lines 264-291). -/
def applyRollingPhysics (p : PlayerProps) (s : ℚ → ℚ) (surfaceNormal : Vec2) (dt : ℚ)
    (st : PlayerState) : PlayerState :=
  let tangentVector := Vec2.normalize s ⟨-surfaceNormal.y, surfaceNormal.x⟩
  let currentTangentialSpeed := st.linearVelocity.dot tangentVector
  let desiredTangentialSpeed := -st.angularVelocityZ * p.radius
  let speedDifference := desiredTangentialSpeed - currentTangentialSpeed
  let frictionImpulse := speedDifference * p.coefficientOfFriction * dt
  let v1 := st.linearVelocity + tangentVector.smul frictionImpulse
  let angularCorrection := -currentTangentialSpeed / p.radius - st.angularVelocityZ
  let angularCorrectionStrength : ℚ := 5
  let w1 := st.angularVelocityZ + angularCorrection * angularCorrectionStrength * dt
  let v2 := applyNormalImpulse p surfaceNormal v1
  { st with linearVelocity := v2, angularVelocityZ := w1 }

/-- Embedding of `handleObstacleOrTerrainCollision` (src/player.js lines
233-262): penetration resolution from the predicted position, then either the
grounded path (rolling physics) or the bounce path; the boolean mirrors the
source's return value (collision resolved or not). -/
def handleObstacleOrTerrainCollision (p : PlayerProps) (s : ℚ → ℚ)
    (predictedPosition : Vec2) (surfaceInfo : Option SurfaceInfo) (dt : ℚ)
    (st : PlayerState) : PlayerState × Bool :=
  match surfaceInfo with
  | none => (st, false)
  | some si =>
      let st1 := { st with position := predictedPosition + si.normal.smul si.penetrationDepth }
      if si.allowGrounded ∧ 0 < si.normal.y then
        let st2 := { st1 with isGrounded := true, currentSurface := some si }
        (applyRollingPhysics p s si.normal dt st2, true)
      else
        ({ st1 with linearVelocity := applyNormalImpulse p si.normal st1.linearVelocity }, true)

/-- Embedding of `handleCollisions` (src/player.js lines 178-231).  Besides
the final state, the returned list records (as ghost instrumentation, in call
order) the surfaces for which `handleObstacleOrTerrainCollision` resolved a
collision this tick; the source keeps no such list. -/
def handleCollisions (p : PlayerProps) (s : ℚ → ℚ) (ground : Ground) (dt : ℚ)
    (st : PlayerState) : PlayerState × List SurfaceInfo :=
  let predictedPosition := st.position + st.linearVelocity.smul dt
  let st0 := { st with isGrounded := false, currentSurface := none }
  let ti := Terrain.getTerrainInfo s predictedPosition.x ground.points
  let playerBottom := predictedPosition.y - p.radius
  let terrainInfo : SurfaceInfo :=
    { height := ti.height, normal := ti.normal,
      penetrationDepth := ti.height - playerBottom,
      isVertical := false, allowGrounded := true }
  let obstacleInfo :=
    Obstacles.findObstacleSurfaceAt s ground.obstacles
      predictedPosition.x predictedPosition.y p.radius
  match obstacleInfo with
  | some oi =>
      let r1 := handleObstacleOrTerrainCollision p s predictedPosition (some oi) dt st0
      let st1 := r1.1
      let useTerrainCollision := (¬ r1.2) ∨ st1.position.y - p.radius < terrainInfo.height
      if useTerrainCollision ∧ terrainInfo.penetrationDepth ≥ -p.groundTolerance then
        ((handleObstacleOrTerrainCollision p s predictedPosition (some terrainInfo) dt st1).1,
         [oi, terrainInfo])
      else if ¬ st1.isGrounded then
        (if st1.position = st1.position then { st1 with position := predictedPosition } else st1,
         [oi])
      else (st1, [oi])
  | none =>
      if terrainInfo.penetrationDepth ≥ -p.groundTolerance then
        ((handleObstacleOrTerrainCollision p s predictedPosition (some terrainInfo) dt st0).1,
         [terrainInfo])
      else if ¬ st0.isGrounded then
        (if st0.position = st0.position then { st0 with position := predictedPosition } else st0,
         [])
      else (st0, [])

/-- Embedding of `updatePhysics` (src/player.js lines 57-70): one physics tick.
The second component is the ghost list of surfaces resolved by
`handleCollisions`. -/
def updatePhysics (p : PlayerProps) (s : ℚ → ℚ) (keys : Keys) (ground : Ground)
    (dt : ℚ) (st : PlayerState) : PlayerState × List SurfaceInfo :=
  let fr := applyForces p s keys st
  let inputTorque := applyTorque p keys fr.2
  let stI := integrateMotion p fr.1 inputTorque dt fr.2
  handleCollisions p s ground dt stI

end Player

set_option maxRecDepth 8000
set_option maxHeartbeats 1000000

theorem Vec2.add_def (a b : Vec2) : a + b = ⟨a.x + b.x, a.y + b.y⟩ := rfl

theorem sqrtA_sq (n : ℕ) : sqrtA ((n * n : ℕ) : ℚ) = n := by
  unfold sqrtA
  rw [Rat.num_natCast, Rat.den_natCast]
  simp [Int.natAbs_mul, Nat.sqrt_eq]

theorem sqrtA_0 : sqrtA 0 = 0 := by
  have h := sqrtA_sq 0; norm_num at h; exact h

theorem sqrtA_1 : sqrtA 1 = 1 := by
  have h := sqrtA_sq 1; norm_num at h; exact h

theorem sqrtA_2 : sqrtA 2 = 1 := by
  have h2 : Nat.sqrt 2 = 1 := by
    rw [show (2 : ℕ) = 1 * 1 + 1 from rfl]
    exact Nat.sqrt_add_eq 1 (by norm_num)
  unfold sqrtA
  norm_num [h2]

theorem sqrtA_25 : sqrtA 25 = 5 := by
  have h := sqrtA_sq 5; norm_num at h; exact h

theorem sqrtA_121 : sqrtA 121 = 11 := by
  have h := sqrtA_sq 11; norm_num at h; exact h

theorem sqrtA_169 : sqrtA 169 = 13 := by
  have h := sqrtA_sq 13; norm_num at h; exact h

theorem sqrtA_10000 : sqrtA 10000 = 100 := by
  have h := sqrtA_sq 100; norm_num at h; exact h

theorem sqrtA_160000 : sqrtA 160000 = 400 := by
  have h := sqrtA_sq 400; norm_num at h; exact h

theorem sqrtA_4000000 : sqrtA 4000000 = 2000 := by
  have h := sqrtA_sq 2000; norm_num at h; exact h

theorem sqrtA_400000000 : sqrtA 400000000 = 20000 := by
  have h := sqrtA_sq 20000; norm_num at h; exact h

theorem dot_add_smul (v n : Vec2) (c : ℚ) :
    (v + n.smul c).dot n = v.dot n + c * (n.x * n.x + n.y * n.y) := by
  simp only [Vec2.add_def, Vec2.smul, Vec2.dot]
  ring

/-- C4: for a contact with unit normal n, the normal response adds the impulse
j = -(1+restitution)·vn·mass along n when vn = v·n is negative (so the
post-impact normal speed is restitution·(-vn), never larger than -vn when
restitution is at most 1), and leaves the velocity unchanged when vn is
nonnegative; as implemented by the shared normal-impulse fragment of
handleObstacleOrTerrainCollision and applyRollingPhysics. -/
theorem C4_normalImpulse_spec (p : PlayerProps) (n v : Vec2)
    (hm : p.mass ≠ 0) (hunit : n.x * n.x + n.y * n.y = 1) :
    (v.dot n < 0 →
      Player.applyNormalImpulse p n v
          = v + n.smul (-(1 + p.coefficientOfRestitution) * v.dot n)
        ∧ (Player.applyNormalImpulse p n v).dot n
          = -(p.coefficientOfRestitution * v.dot n)
        ∧ (0 ≤ p.coefficientOfRestitution → p.coefficientOfRestitution ≤ 1 →
            abs ((Player.applyNormalImpulse p n v).dot n) ≤ abs (v.dot n)))
    ∧ (0 ≤ v.dot n → Player.applyNormalImpulse p n v = v) := by
  constructor
  · intro hvn
    have hdef : Player.applyNormalImpulse p n v
        = v + n.smul (-(1 + p.coefficientOfRestitution) * v.dot n) := by
      unfold Player.applyNormalImpulse
      rw [if_pos hvn]
      show v + n.smul (-(1 + p.coefficientOfRestitution) * v.dot n * p.mass / p.mass) = _
      rw [mul_div_assoc, div_self hm, mul_one]
    refine ⟨hdef, ?_, ?_⟩
    · rw [hdef, dot_add_smul, hunit, mul_one]; ring
    · intro h0 h1
      rw [hdef, dot_add_smul, hunit, mul_one]
      rw [show v.dot n + -(1 + p.coefficientOfRestitution) * v.dot n
            = -(p.coefficientOfRestitution * v.dot n) from by ring]
      rw [abs_neg, abs_mul, abs_of_nonneg h0, abs_of_neg hvn]
      nlinarith
  · intro h
    unfold Player.applyNormalImpulse
    rw [if_neg (not_lt.mpr h)]

/-- Witness for C4 at the concrete contact n = (0,1), v = (0,-10) with the
player's restitution 0.3. -/
theorem C4_normalImpulse_spec_witness :
    Player.applyNormalImpulse playerProps ⟨0, 1⟩ ⟨0, -10⟩
      = (⟨0, -10⟩ : Vec2)
        + (⟨0, 1⟩ : Vec2).smul
            (-(1 + playerProps.coefficientOfRestitution) * (Vec2.dot ⟨0, -10⟩ ⟨0, 1⟩)) := by
  exact ((C4_normalImpulse_spec playerProps ⟨0, 1⟩ ⟨0, -10⟩
    (by norm_num [playerProps]) (by norm_num)).1 (by norm_num [Vec2.dot])).1

/-- C1: evaluation of one full tick at a concrete failing input.  The body
starts at rest at (0,0) and free-falls one tick (dt = 1) into the side of a
wall; the tick selects the obstacle surface with penetration depth 5 > 0 and
normal (-1,0), yet the committed position equals the raw predicted position
(0,-147) rather than predicted plus normal times depth, because the guard
`this.position.equals(this.position)` in handleCollisions is trivially true
and overwrites the obstacle correction. -/
theorem C1_positionOverwrite_eval :
    (Player.updatePhysics playerProps sqrtA ⟨false, false, false⟩
        ⟨[⟨-1000, -1000⟩, ⟨1000, -1000⟩], [⟨⟨105, -147⟩, 200, 100⟩]⟩ 1
        ⟨⟨0, 0⟩, ⟨0, 0⟩, 0, 0, false, none⟩)
      = (⟨⟨0, -147⟩, ⟨0, -147⟩, 0, 0, false, none⟩,
         [{ height := -207, normal := ⟨-1, 0⟩, penetrationDepth := 5,
            isVertical := true, allowGrounded := true }])
    ∧ ((0 : ℚ) < 5
        ∧ (⟨0, -147⟩ : Vec2) ≠ (⟨0, -147⟩ : Vec2) + (⟨-1, 0⟩ : Vec2).smul 5) := by
  norm_num [Player.updatePhysics, Player.applyForces, Player.calculateAirControl,
    Player.applyTorque, Player.integrateMotion, Player.handleCollisions,
    Player.handleObstacleOrTerrainCollision, Player.applyRollingPhysics,
    Player.applyNormalImpulse, Terrain.getTerrainInfo, Terrain.findSegmentIdx,
    Obstacles.findObstacleSurfaceAt, Obstacles.findAux, Obstacles.getSurfaceInfo,
    closestPoint, Vec2.normalize, Vec2.length, Vec2.smul, Vec2.divScalar, Vec2.dot,
    Vec2.add_def, msign, playerProps, sqrtA_0, sqrtA_25, sqrtA_4000000]

/-- C2 counterexample: for the box of half extent 1 centered at the origin and
the query center (4,5) with radius 6, the contact point is the corner (1,1)
and the contact vector (3,4) has length 5, so the claimed normal is the
normalized diagonal (3/5, 4/5); but getSurfaceInfo in src/obstacles.js snaps
the normal to the face axis and returns (0,1). -/
theorem C2_cornerNormal_counterexample :
    (Obstacles.getSurfaceInfo sqrtA ⟨⟨0, 0⟩, 2, 2⟩ 4 5 6).map SurfaceInfo.normal
        = some ⟨0, 1⟩
    ∧ closestPoint ⟨⟨0, 0⟩, 2, 2⟩ 4 5 = ⟨1, 1⟩
    ∧ sqrtA ((4 - 1) * (4 - 1) + (5 - 1) * (5 - 1)) = 5
    ∧ ((⟨0, 1⟩ : Vec2) ≠ ⟨(4 - 1) / 5, (5 - 1) / 5⟩) := by
  norm_num [Obstacles.getSurfaceInfo, closestPoint, sqrtA_25, msign]

/-- C3 counterexample: on the steep terrain segment from (0,0) to (5,12) the
selected surface has normal (-12/13, 5/13), whose y component 5/13 does not
exceed any grounding threshold in the claimed 0.5 to 0.7 band, yet the tick
sets isGrounded. -/
theorem C3_groundingThreshold_counterexample :
    (Player.updatePhysics playerProps sqrtA ⟨false, false, false⟩
        ⟨[⟨0, 0⟩, ⟨5, 12⟩], []⟩ 1 ⟨⟨2, 157⟩, ⟨0, 0⟩, 0, 0, false, none⟩).1.isGrounded = true
    ∧ (Player.updatePhysics playerProps sqrtA ⟨false, false, false⟩
        ⟨[⟨0, 0⟩, ⟨5, 12⟩], []⟩ 1 ⟨⟨2, 157⟩, ⟨0, 0⟩, 0, 0, false, none⟩).2
      = [{ height := 24/5, normal := ⟨-12/13, 5/13⟩, penetrationDepth := 24/5,
           isVertical := false, allowGrounded := true }]
    ∧ ¬ ((1 : ℚ)/2 < 5/13) := by
  norm_num [Player.updatePhysics, Player.applyForces, Player.calculateAirControl,
    Player.applyTorque, Player.integrateMotion, Player.handleCollisions,
    Player.handleObstacleOrTerrainCollision, Player.applyRollingPhysics,
    Player.applyNormalImpulse, Terrain.getTerrainInfo, Terrain.findSegmentIdx,
    Obstacles.findObstacleSurfaceAt, Obstacles.findAux, Obstacles.getSurfaceInfo,
    closestPoint, Vec2.normalize, Vec2.length, Vec2.smul, Vec2.divScalar, Vec2.dot,
    Vec2.add_def, msign, playerProps, sqrtA_0, sqrtA_1, sqrtA_169]

/-- C5 counterexample: a free-fall tick (no obstacle, terrain far below, zero
input) starting from vy = -400, which is faster than the terminal speed
sqrt(147000) of roughly 383; quadratic drag then exceeds gravity and vy
strictly increases instead of decreasing. -/
theorem C5_freefall_counterexample :
    (Player.updatePhysics playerProps sqrtA ⟨false, false, false⟩
        ⟨[⟨-1000, -10000⟩, ⟨1000, -10000⟩], []⟩ 1
        ⟨⟨0, 0⟩, ⟨0, -400⟩, 0, 0, false, none⟩).2 = []
    ∧ (-400 : ℚ) <
        (Player.updatePhysics playerProps sqrtA ⟨false, false, false⟩
          ⟨[⟨-1000, -10000⟩, ⟨1000, -10000⟩], []⟩ 1
          ⟨⟨0, 0⟩, ⟨0, -400⟩, 0, 0, false, none⟩).1.linearVelocity.y := by
  have h1 : Player.applyForces playerProps sqrtA ⟨false, false, false⟩
      ⟨⟨0, 0⟩, ⟨0, -400⟩, 0, 0, false, none⟩
      = (⟨0, 13⟩, ⟨⟨0, 0⟩, ⟨0, -400⟩, 0, 0, false, none⟩) := by
    norm_num [Player.applyForces, Player.calculateAirControl, Vec2.length, Vec2.smul,
      Vec2.add_def, playerProps, sqrtA_160000]
  have h2 : Player.applyTorque playerProps ⟨false, false, false⟩
      ⟨⟨0, 0⟩, ⟨0, -400⟩, 0, 0, false, none⟩ = 0 := by
    norm_num [Player.applyTorque, playerProps]
  have h3 : Player.integrateMotion playerProps ⟨0, 13⟩ 0 1
      ⟨⟨0, 0⟩, ⟨0, -400⟩, 0, 0, false, none⟩
      = ⟨⟨0, 0⟩, ⟨0, -387⟩, 0, 0, false, none⟩ := by
    norm_num [Player.integrateMotion, Vec2.smul, Vec2.divScalar, Vec2.add_def, playerProps]
  have h4 : Player.handleCollisions playerProps sqrtA
      ⟨[⟨-1000, -10000⟩, ⟨1000, -10000⟩], []⟩ 1 ⟨⟨0, 0⟩, ⟨0, -387⟩, 0, 0, false, none⟩
      = (⟨⟨0, -387⟩, ⟨0, -387⟩, 0, 0, false, none⟩, []) := by
    norm_num [Player.handleCollisions, Player.handleObstacleOrTerrainCollision,
      Player.applyRollingPhysics, Player.applyNormalImpulse,
      Terrain.getTerrainInfo, Terrain.findSegmentIdx,
      Obstacles.findObstacleSurfaceAt, Obstacles.findAux, Obstacles.getSurfaceInfo,
      closestPoint, Vec2.normalize, Vec2.length, Vec2.smul, Vec2.divScalar, Vec2.dot,
      Vec2.add_def, msign, playerProps, sqrtA_4000000]
  have ht : Player.updatePhysics playerProps sqrtA ⟨false, false, false⟩
      ⟨[⟨-1000, -10000⟩, ⟨1000, -10000⟩], []⟩ 1
      ⟨⟨0, 0⟩, ⟨0, -400⟩, 0, 0, false, none⟩
      = (⟨⟨0, -387⟩, ⟨0, -387⟩, 0, 0, false, none⟩, []) := by
    rw [Player.updatePhysics, h1, h2, h3, h4]
  rw [ht]
  norm_num

/-- C6 counterexample: the same corner query as for C2 returns normal (0,1)
with penetration depth 1, but the corrected center (4,6) has squared distance
34 to the box instead of the squared radius 36, so the translation by
normal times depth does not exactly remove the overlap. -/
theorem C6_exactRemoval_counterexample :
    (Obstacles.getSurfaceInfo sqrtA ⟨⟨0, 0⟩, 2, 2⟩ 4 5 6)
        = some { height := 1, normal := ⟨0, 1⟩, penetrationDepth := 1,
                 isVertical := false, allowGrounded := true }
    ∧ boxDistSq ⟨⟨0, 0⟩, 2, 2⟩ ((⟨4, 5⟩ : Vec2) + (⟨0, 1⟩ : Vec2).smul 1) = 34
    ∧ (34 : ℚ) ≠ 6 * 6 := by
  norm_num [Obstacles.getSurfaceInfo, boxDistSq, closestPoint, Vec2.add_def,
    Vec2.smul, msign, sqrtA_25]

/-- C8 counterexample: a tick with dt = 0 is not a no-op; a body overlapping
the flat terrain at height 0 (center (0,5), radius 10) is pushed to (0,10)
by the penetration correction even though dt = 0. -/
theorem C8_dtZero_counterexample :
    (Player.updatePhysics playerProps sqrtA ⟨false, false, false⟩
        ⟨[⟨-1000, 0⟩, ⟨1000, 0⟩], []⟩ 0 ⟨⟨0, 5⟩, ⟨0, 0⟩, 0, 0, false, none⟩).1.position
      = ⟨0, 10⟩
    ∧ ((⟨0, 10⟩ : Vec2) ≠ ⟨0, 5⟩) := by
  norm_num [Player.updatePhysics, Player.applyForces, Player.calculateAirControl,
    Player.applyTorque, Player.integrateMotion, Player.handleCollisions,
    Player.handleObstacleOrTerrainCollision, Player.applyRollingPhysics,
    Player.applyNormalImpulse, Terrain.getTerrainInfo, Terrain.findSegmentIdx,
    Obstacles.findObstacleSurfaceAt, Obstacles.findAux, Obstacles.getSurfaceInfo,
    closestPoint, Vec2.normalize, Vec2.length, Vec2.smul, Vec2.divScalar, Vec2.dot,
    Vec2.add_def, msign, playerProps, sqrtA_0, sqrtA_1, sqrtA_4000000]

/-- C9 counterexample: with samples (0,0), (1,1), (2,0) and the query exactly
at the last sample x = 2 (which is between the first and last samples), the
segment scan finds no bracket, defaults to segment 0 and extrapolates height
2; the bracketing interpolation and the edge policy would both give 0. -/
theorem C9_terrainEdge_counterexample :
    (Terrain.getTerrainInfo sqrtA 2 [⟨0, 0⟩, ⟨1, 1⟩, ⟨2, 0⟩]).height = 2
    ∧ ((0 : ℚ) ≤ 2 ∧ (2 : ℚ) ≤ 2)
    ∧ (2 : ℚ) ≠ 0 := by
  norm_num [Terrain.getTerrainInfo, Terrain.findSegmentIdx, Vec2.normalize,
    Vec2.length, sqrtA_2]

/-- C8 amended: a tick with dt = 0 leaves the whole state unchanged provided
the body is airborne (not grounded, no current surface) and no surface is in
contact at its current position (no obstacle query hit, terrain penetration
below the ground tolerance); without those provisos a dt = 0 tick still runs
penetration correction, bounce impulses and the grounded reclassification,
which do change state (see the counterexample). -/
theorem C8_dtZero_noop_amended (p : PlayerProps) (s : ℚ → ℚ) (keys : Keys)
    (ground : Ground) (st : PlayerState)
    (hg : st.isGrounded = false) (hcs : st.currentSurface = none)
    (hobs : Obstacles.findObstacleSurfaceAt s ground.obstacles
        st.position.x st.position.y p.radius = none)
    (hterr : (Terrain.getTerrainInfo s st.position.x ground.points).height
        - (st.position.y - p.radius) < -p.groundTolerance) :
    Player.updatePhysics p s keys ground 0 st = (st, []) := by
  obtain ⟨pos, v, om, rot, g, cs⟩ := st
  simp only at hg hcs hobs hterr
  subst hg; subst hcs
  have hforces : (Player.applyForces p s keys ⟨pos, v, om, rot, false, none⟩).2
      = ⟨pos, v, om, rot, false, none⟩ := by
    unfold Player.applyForces
    simp
  have hint : ∀ f t, Player.integrateMotion p f t 0 ⟨pos, v, om, rot, false, none⟩
      = ⟨pos, v, om, rot, false, none⟩ := by
    intro f t
    unfold Player.integrateMotion
    simp [Vec2.smul, Vec2.add_def]
  have hcoll : Player.handleCollisions p s ground 0 ⟨pos, v, om, rot, false, none⟩
      = (⟨pos, v, om, rot, false, none⟩, []) := by
    unfold Player.handleCollisions
    simp only [Vec2.smul, mul_zero, Vec2.add_def, add_zero, hobs]
    rw [if_neg (by simp only [ge_iff_le, not_le]; exact hterr)]
    simp
  rw [Player.updatePhysics, hforces, hint, hcoll]

/-- Witness for C8 at a concrete airborne state with nonzero velocity and
angular velocity over terrain far below. -/
theorem C8_dtZero_noop_amended_witness :
    Player.updatePhysics playerProps sqrtA ⟨false, false, false⟩
        ⟨[⟨-1000, -1000⟩, ⟨1000, -1000⟩], []⟩ 0 ⟨⟨0, 100⟩, ⟨2, 3⟩, 1, 0, false, none⟩
      = (⟨⟨0, 100⟩, ⟨2, 3⟩, 1, 0, false, none⟩, []) := by
  exact C8_dtZero_noop_amended playerProps sqrtA ⟨false, false, false⟩
    ⟨[⟨-1000, -1000⟩, ⟨1000, -1000⟩], []⟩ ⟨⟨0, 100⟩, ⟨2, 3⟩, 1, 0, false, none⟩
    rfl rfl rfl
    (by norm_num [Terrain.getTerrainInfo, Terrain.findSegmentIdx, Vec2.normalize,
      Vec2.length, playerProps, sqrtA_4000000])

theorem hoc_bounce_eq (p : PlayerProps) (s : ℚ → ℚ) (pred : Vec2) (si : SurfaceInfo)
    (dt : ℚ) (st : PlayerState) (h : ¬ (si.allowGrounded = true ∧ 0 < si.normal.y)) :
    Player.handleObstacleOrTerrainCollision p s pred (some si) dt st
      = ({ st with position := pred + si.normal.smul si.penetrationDepth,
                   linearVelocity := Player.applyNormalImpulse p si.normal st.linearVelocity },
         true) := by
  simp only [Player.handleObstacleOrTerrainCollision]
  rw [if_neg h]

theorem hoc_grounded_eq (p : PlayerProps) (s : ℚ → ℚ) (pred : Vec2) (si : SurfaceInfo)
    (dt : ℚ) (st : PlayerState) (h : si.allowGrounded = true ∧ 0 < si.normal.y) :
    Player.handleObstacleOrTerrainCollision p s pred (some si) dt st
      = (Player.applyRollingPhysics p s si.normal dt
          { st with position := pred + si.normal.smul si.penetrationDepth,
                    isGrounded := true, currentSurface := some si },
         true) := by
  simp only [Player.handleObstacleOrTerrainCollision]
  rw [if_pos h]

/-- C10: when the only contact of a tick is a non-grounding obstacle contact
(allowGrounded false or normal.y not positive) and the terrain penetration is
below the ground tolerance, handleCollisions commits the raw predicted
position — the obstacle's penetration correction is overwritten by the
trivially-true position guard and discarded — while the bounce impulse on the
velocity is retained. -/
theorem C10_obstacleOverwrite (p : PlayerProps) (s : ℚ → ℚ) (ground : Ground)
    (dt : ℚ) (st : PlayerState) (oi : SurfaceInfo)
    (hobs : Obstacles.findObstacleSurfaceAt s ground.obstacles
        (st.position + st.linearVelocity.smul dt).x
        (st.position + st.linearVelocity.smul dt).y p.radius = some oi)
    (hng : ¬ (oi.allowGrounded = true ∧ 0 < oi.normal.y))
    (hterr : (Terrain.getTerrainInfo s (st.position + st.linearVelocity.smul dt).x
          ground.points).height
        - ((st.position + st.linearVelocity.smul dt).y - p.radius) < -p.groundTolerance) :
    Player.handleCollisions p s ground dt st
      = ({ st with position := st.position + st.linearVelocity.smul dt,
                   linearVelocity := Player.applyNormalImpulse p oi.normal st.linearVelocity,
                   isGrounded := false, currentSurface := none }, [oi]) := by
  unfold Player.handleCollisions
  simp only [hobs,
    hoc_bounce_eq p s (st.position + st.linearVelocity.smul dt) oi dt
      { st with isGrounded := false, currentSurface := none } hng]
  rw [if_neg (by
    simp only [ge_iff_le, not_le]
    intro hcon
    exact absurd hcon.2 (not_le.mpr hterr))]
  simp

/-- Witness for C10: the body at the origin touches the side of a wall whose
surface query returns the non-grounding normal (-1,0) with penetration 5,
while the terrain is far below; the committed position is the raw predicted
position (0,0). -/
theorem C10_obstacleOverwrite_witness :
    Player.handleCollisions playerProps sqrtA
        ⟨[⟨-1000, -1000⟩, ⟨1000, -1000⟩], [⟨⟨105, 0⟩, 200, 100⟩]⟩ 1
        ⟨⟨0, 0⟩, ⟨0, 0⟩, 0, 0, false, none⟩
      = (⟨(⟨0, 0⟩ : Vec2) + (⟨0, 0⟩ : Vec2).smul 1,
          Player.applyNormalImpulse playerProps ⟨-1, 0⟩ ⟨0, 0⟩, 0, 0, false, none⟩,
         [{ height := -60, normal := ⟨-1, 0⟩, penetrationDepth := 5,
            isVertical := true, allowGrounded := true }]) := by
  exact C10_obstacleOverwrite playerProps sqrtA
    ⟨[⟨-1000, -1000⟩, ⟨1000, -1000⟩], [⟨⟨105, 0⟩, 200, 100⟩]⟩ 1
    ⟨⟨0, 0⟩, ⟨0, 0⟩, 0, 0, false, none⟩
    ⟨-60, ⟨-1, 0⟩, 5, true, true⟩
    (by norm_num [Obstacles.findObstacleSurfaceAt, Obstacles.findAux,
      Obstacles.getSurfaceInfo, closestPoint, msign, Vec2.add_def, Vec2.smul,
      playerProps, sqrtA_25])
    (by norm_num)
    (by norm_num [Terrain.getTerrainInfo, Terrain.findSegmentIdx, Vec2.normalize,
      Vec2.length, Vec2.add_def, Vec2.smul, playerProps, sqrtA_4000000])

theorem handleCollisions_velocity_of_nil (p : PlayerProps) (s : ℚ → ℚ) (ground : Ground)
    (dt : ℚ) (st : PlayerState)
    (h : (Player.handleCollisions p s ground dt st).2 = []) :
    (Player.handleCollisions p s ground dt st).1.linearVelocity = st.linearVelocity := by
  unfold Player.handleCollisions at h ⊢
  dsimp only at h ⊢
  cases heq : Obstacles.findObstacleSurfaceAt s ground.obstacles
      (st.position + st.linearVelocity.smul dt).x
      (st.position + st.linearVelocity.smul dt).y p.radius with
  | some oi =>
      rw [heq] at h
      dsimp only at h
      split at h
      · exact absurd h (by simp)
      · split at h
        · exact absurd h (by simp)
        · exact absurd h (by simp)
  | none =>
      rw [heq] at h
      dsimp only at h ⊢
      by_cases hc : (Terrain.getTerrainInfo s (st.position + st.linearVelocity.smul dt).x
            ground.points).height
          - ((st.position + st.linearVelocity.smul dt).y - p.radius) ≥ -p.groundTolerance
      · rw [if_pos hc] at h
        exact absurd h (by simp)
      · rw [if_neg hc]
        simp

/-- C5 amended: in a free-fall tick of the default player (zero input, not
grounded, vertical motion, no surface resolved), vertical velocity strictly
decreases exactly while the body is above the quadratic-drag terminal speed:
147000 is the square of the terminal speed sqrt(g0·gravityScale·mass /
airResistanceCoefficient); below terminal speed (or moving up) vy strictly
decreases, and at exactly terminal falling speed the tick leaves vy unchanged
(drag balances gravity).  Beyond terminal speed vy increases, refuting the
unconditional monotonicity in the original claim. -/
theorem C5_freefall_decrease_amended (s : ℚ → ℚ) (ground : Ground) (dt : ℚ)
    (st : PlayerState)
    (hdt : 0 < dt) (hg : st.isGrounded = false)
    (hvx : st.linearVelocity.x = 0)
    (hlen : Vec2.length s st.linearVelocity = abs st.linearVelocity.y)
    (hfree : (Player.updatePhysics playerProps s ⟨false, false, false⟩ ground dt st).2 = []) :
    (49/5 : ℚ) * playerProps.gravityScale * playerProps.mass
        / playerProps.airResistanceCoefficient = 147000
    ∧ (0 ≤ st.linearVelocity.y ∨ st.linearVelocity.y ^ 2 < 147000 →
        (Player.updatePhysics playerProps s ⟨false, false, false⟩ ground dt st).1.linearVelocity.y
          < st.linearVelocity.y)
    ∧ (st.linearVelocity.y < 0 → st.linearVelocity.y ^ 2 = 147000 →
        (Player.updatePhysics playerProps s ⟨false, false, false⟩ ground dt st).1.linearVelocity.y
          = st.linearVelocity.y) := by
  have hforces2 : (Player.applyForces playerProps s ⟨false, false, false⟩ st).2 = st := by
    unfold Player.applyForces
    simp [hg]
  have hFy : (Player.applyForces playerProps s ⟨false, false, false⟩ st).1.y
      = -147 - 1/1000 * (abs st.linearVelocity.y * st.linearVelocity.y) := by
    unfold Player.applyForces Player.calculateAirControl
    simp [hg, hlen, Vec2.add_def, Vec2.smul, playerProps]
    ring
  have hIy : ∀ (f : Vec2) (t : ℚ),
      (Player.integrateMotion playerProps f t dt st).linearVelocity.y
        = st.linearVelocity.y + f.y / playerProps.mass * dt := by
    intro f t
    unfold Player.integrateMotion
    simp [Vec2.divScalar, Vec2.smul, Vec2.add_def]
  have hvel : (Player.updatePhysics playerProps s ⟨false, false, false⟩
          ground dt st).1.linearVelocity
      = (Player.integrateMotion playerProps
          (Player.applyForces playerProps s ⟨false, false, false⟩ st).1
          (Player.applyTorque playerProps ⟨false, false, false⟩
            (Player.applyForces playerProps s ⟨false, false, false⟩ st).2)
          dt
          (Player.applyForces playerProps s ⟨false, false, false⟩ st).2).linearVelocity := by
    exact handleCollisions_velocity_of_nil playerProps s ground dt _ hfree
  have hy : (Player.updatePhysics playerProps s ⟨false, false, false⟩
          ground dt st).1.linearVelocity.y
      = st.linearVelocity.y
        + (-147 - 1/1000 * (abs st.linearVelocity.y * st.linearVelocity.y))
            / playerProps.mass * dt := by
    rw [hvel, hforces2, hIy, hFy]
  refine ⟨by norm_num [playerProps], ?_, ?_⟩
  · intro hterm
    rw [hy]
    have hmass : playerProps.mass = 1 := by norm_num [playerProps]
    rw [hmass, div_one]
    rcases le_or_lt 0 st.linearVelocity.y with hpos | hneg
    · rw [abs_of_nonneg hpos]
      nlinarith [sq_nonneg st.linearVelocity.y, mul_pos hdt hdt]
    · rw [abs_of_neg hneg]
      rcases hterm with hterm | hterm
      · linarith
      · have h2 : st.linearVelocity.y * st.linearVelocity.y < 147000 := by
          nlinarith [sq_abs st.linearVelocity.y]
        nlinarith
  · intro hneg hsq
    rw [hy]
    have hmass : playerProps.mass = 1 := by norm_num [playerProps]
    rw [hmass, div_one, abs_of_neg hneg]
    have h2 : st.linearVelocity.y * st.linearVelocity.y = 147000 := by
      nlinarith [sq_abs st.linearVelocity.y]
    have hz : -147 - 1/1000 * (-st.linearVelocity.y * st.linearVelocity.y) = 0 := by
      rw [show -st.linearVelocity.y * st.linearVelocity.y
            = -(st.linearVelocity.y * st.linearVelocity.y) from by ring, h2]
      norm_num
    rw [hz]
    ring

/-- Witness for C5 at a concrete free-fall tick: vy = -100 (below terminal
speed), terrain far below, no obstacles; vy strictly decreases. -/
theorem C5_freefall_decrease_amended_witness :
    (Player.updatePhysics playerProps sqrtA ⟨false, false, false⟩
        ⟨[⟨-1000, -10000⟩, ⟨1000, -10000⟩], []⟩ 1
        ⟨⟨0, 1000⟩, ⟨0, -100⟩, 0, 0, false, none⟩).1.linearVelocity.y < -100 := by
  have h := (C5_freefall_decrease_amended sqrtA ⟨[⟨-1000, -10000⟩, ⟨1000, -10000⟩], []⟩ 1
    ⟨⟨0, 1000⟩, ⟨0, -100⟩, 0, 0, false, none⟩
    (by norm_num) rfl rfl
    (by norm_num [Vec2.length, sqrtA_10000])
    (by
      have h1 : Player.applyForces playerProps sqrtA ⟨false, false, false⟩
          ⟨⟨0, 1000⟩, ⟨0, -100⟩, 0, 0, false, none⟩
          = (⟨0, -137⟩, ⟨⟨0, 1000⟩, ⟨0, -100⟩, 0, 0, false, none⟩) := by
        norm_num [Player.applyForces, Player.calculateAirControl, Vec2.length, Vec2.smul,
          Vec2.add_def, playerProps, sqrtA_10000]
      have h2 : Player.applyTorque playerProps ⟨false, false, false⟩
          ⟨⟨0, 1000⟩, ⟨0, -100⟩, 0, 0, false, none⟩ = 0 := by
        norm_num [Player.applyTorque, playerProps]
      have h3 : Player.integrateMotion playerProps ⟨0, -137⟩ 0 1
          ⟨⟨0, 1000⟩, ⟨0, -100⟩, 0, 0, false, none⟩
          = ⟨⟨0, 1000⟩, ⟨0, -237⟩, 0, 0, false, none⟩ := by
        norm_num [Player.integrateMotion, Vec2.smul, Vec2.divScalar, Vec2.add_def, playerProps]
      have h4 : Player.handleCollisions playerProps sqrtA
          ⟨[⟨-1000, -10000⟩, ⟨1000, -10000⟩], []⟩ 1
          ⟨⟨0, 1000⟩, ⟨0, -237⟩, 0, 0, false, none⟩
          = (⟨⟨0, 763⟩, ⟨0, -237⟩, 0, 0, false, none⟩, []) := by
        norm_num [Player.handleCollisions, Player.handleObstacleOrTerrainCollision,
          Player.applyRollingPhysics, Player.applyNormalImpulse,
          Terrain.getTerrainInfo, Terrain.findSegmentIdx,
          Obstacles.findObstacleSurfaceAt, Obstacles.findAux, Obstacles.getSurfaceInfo,
          closestPoint, Vec2.normalize, Vec2.length, Vec2.smul, Vec2.divScalar, Vec2.dot,
          Vec2.add_def, msign, playerProps, sqrtA_4000000]
      rw [Player.updatePhysics, h1, h2, h3, h4]))
  exact h.2.1 (Or.inr (by norm_num))

theorem applyRollingPhysics_isGrounded (p : PlayerProps) (s : ℚ → ℚ) (n : Vec2) (dt : ℚ)
    (st : PlayerState) :
    (Player.applyRollingPhysics p s n dt st).isGrounded = st.isGrounded := rfl

theorem hoc_isGrounded_iff (p : PlayerProps) (s : ℚ → ℚ) (pred : Vec2) (si : SurfaceInfo)
    (dt : ℚ) (st : PlayerState) :
    ((Player.handleObstacleOrTerrainCollision p s pred (some si) dt st).1.isGrounded = true)
      ↔ (st.isGrounded = true ∨ (si.allowGrounded = true ∧ 0 < si.normal.y)) := by
  by_cases h : si.allowGrounded = true ∧ 0 < si.normal.y
  · rw [hoc_grounded_eq p s pred si dt st h]
    simp [applyRollingPhysics_isGrounded, h]
  · rw [hoc_bounce_eq p s pred si dt st h]
    simp [h]

theorem handleCollisions_grounded_iff (p : PlayerProps) (s : ℚ → ℚ) (ground : Ground)
    (dt : ℚ) (st : PlayerState) :
    ((Player.handleCollisions p s ground dt st).1.isGrounded = true)
      ↔ ∃ si ∈ (Player.handleCollisions p s ground dt st).2,
          si.allowGrounded = true ∧ 0 < si.normal.y := by
  unfold Player.handleCollisions
  dsimp only
  cases heq : Obstacles.findObstacleSurfaceAt s ground.obstacles
      (st.position + st.linearVelocity.smul dt).x
      (st.position + st.linearVelocity.smul dt).y p.radius with
  | some oi =>
      dsimp only
      by_cases hoi : oi.allowGrounded = true ∧ 0 < oi.normal.y
      · rw [hoc_grounded_eq p s (st.position + st.linearVelocity.smul dt) oi dt
          ⟨st.position, st.linearVelocity, st.angularVelocityZ, st.rotationZ, false, none⟩ hoi]
        split
        · rw [hoc_isGrounded_iff]
          simp [applyRollingPhysics_isGrounded, hoi]
        · split
          · simp_all [applyRollingPhysics_isGrounded]
          · simp [applyRollingPhysics_isGrounded, hoi]
      · rw [hoc_bounce_eq p s (st.position + st.linearVelocity.smul dt) oi dt
          ⟨st.position, st.linearVelocity, st.angularVelocityZ, st.rotationZ, false, none⟩ hoi]
        split
        · rw [hoc_isGrounded_iff]
          simp [hoi]
        · split
          · simp [hoi]
          · simp_all
  | none =>
      dsimp only
      split
      · rw [hoc_isGrounded_iff]
        simp
      · split
        · simp
        · simp_all

/-- C3 amended: at the end of every tick isGrounded is true if and only if
some surface resolved this tick has allowGrounded and normal.y strictly
greater than 0 — the grounding threshold in the code is 0, not the claimed
0.5 to 0.7 band; the jump branch of applyForces clears isGrounded and
currentSurface the moment the jump impulse is added; and handleCollisions
recomputes the grounded state from scratch, ignoring the incoming isGrounded
and currentSurface values entirely (never latched). -/
theorem C3_grounded_iff_amended :
    (∀ (p : PlayerProps) (s : ℚ → ℚ) (keys : Keys) (ground : Ground) (dt : ℚ)
        (st : PlayerState),
        ((Player.updatePhysics p s keys ground dt st).1.isGrounded = true ↔
          ∃ si ∈ (Player.updatePhysics p s keys ground dt st).2,
            si.allowGrounded = true ∧ 0 < si.normal.y))
    ∧ (∀ (p : PlayerProps) (s : ℚ → ℚ) (keys : Keys) (st : PlayerState) (cs : SurfaceInfo),
        keys.w = true → st.isGrounded = true → st.currentSurface = some cs →
          (Player.applyForces p s keys st).2.isGrounded = false
          ∧ (Player.applyForces p s keys st).2.currentSurface = none)
    ∧ (∀ (p : PlayerProps) (s : ℚ → ℚ) (ground : Ground) (dt : ℚ) (st : PlayerState)
        (b : Bool) (c : Option SurfaceInfo),
        Player.handleCollisions p s ground dt
            { st with isGrounded := b, currentSurface := c }
          = Player.handleCollisions p s ground dt st) := by
  refine ⟨?_, ?_, ?_⟩
  · intro p s keys ground dt st
    exact handleCollisions_grounded_iff p s ground dt _
  · intro p s keys st cs hw hg hcs
    simp [Player.applyForces, hw, hg, hcs]
  · intro p s ground dt st b c
    rfl

/-- Witness for C3: a grounded player holding w with a current surface has
its grounded flag cleared by the jump branch of applyForces. -/
theorem C3_grounded_iff_amended_witness :
    (Player.applyForces playerProps sqrtA ⟨false, false, true⟩
        ⟨⟨0, 0⟩, ⟨0, 0⟩, 0, 0, true,
         some ⟨0, ⟨0, 1⟩, 0, false, true⟩⟩).2.isGrounded = false := by
  exact (C3_grounded_iff_amended.2.1 playerProps sqrtA ⟨false, false, true⟩
    ⟨⟨0, 0⟩, ⟨0, 0⟩, 0, 0, true, some ⟨0, ⟨0, 1⟩, 0, false, true⟩⟩
    ⟨0, ⟨0, 1⟩, 0, false, true⟩ rfl rfl rfl).1

/-- C2 amended: the part_008 variant of getSurfaceInfo does return the
normalized vector from the closest boundary point to the query center
(unit length, componentwise equal to the contact vector divided by the
contact distance, so a corner contact keeps both components nonzero), with
the fallback normal (0,1) when the contact distance is below the 0.0001
degeneracy cutoff; the obstacles.js variant instead snaps the normal to a
face axis (see the counterexample), so the claim holds only for the part_008
variant. -/
theorem C2_part008_normal_spec (s : ℚ → ℚ) (o : Obstacle) (px py pr dx dy cd : ℚ)
    (hdx : dx = px - (closestPoint o px py).x)
    (hdy : dy = py - (closestPoint o px py).y)
    (hcd : cd = s (dx * dx + dy * dy))
    (hs : SqrtOn s (dx * dx + dy * dy))
    (hcol : ¬ (cd > pr + 1/10)) :
    (1/10000 ≤ cd →
        Part008.getSurfaceInfo s o px py pr
          = some { height := cd, normal := ⟨dx / cd, dy / cd⟩,
                   penetrationDepth := pr - cd,
                   isVertical := abs (dx / cd) > abs (dy / cd), allowGrounded := true }
        ∧ (dx / cd) * (dx / cd) + (dy / cd) * (dy / cd) = 1
        ∧ (dx ≠ 0 → dx / cd ≠ 0) ∧ (dy ≠ 0 → dy / cd ≠ 0))
    ∧ (cd < 1/10000 →
        Part008.getSurfaceInfo s o px py pr
          = some { height := cd, normal := ⟨0, 1⟩, penetrationDepth := pr - cd,
                   isVertical := false, allowGrounded := true }) := by
  constructor
  · intro hge
    have hne : cd ≠ 0 := by
      intro h0
      rw [h0] at hge
      norm_num at hge
    have heq : Part008.getSurfaceInfo s o px py pr
        = some { height := cd, normal := ⟨dx / cd, dy / cd⟩,
                 penetrationDepth := pr - cd,
                 isVertical := abs (dx / cd) > abs (dy / cd), allowGrounded := true } := by
      unfold Part008.getSurfaceInfo
      dsimp only
      rw [← hdx, ← hdy, ← hcd]
      rw [if_neg hcol, if_neg (not_lt.mpr hge)]
    refine ⟨heq, ?_, ?_, ?_⟩
    · have hsq : cd * cd = dx * dx + dy * dy := hcd ▸ hs.2
      field_simp
      linarith [hsq]
    · intro h
      exact div_ne_zero h hne
    · intro h
      exact div_ne_zero h hne
  · intro hlt
    unfold Part008.getSurfaceInfo
    dsimp only
    rw [← hdx, ← hdy, ← hcd]
    rw [if_neg hcol, if_pos hlt]
    norm_num

/-- Witness for C2 at the concrete corner query: box of half extent 1 at the
origin, query center (4,5), radius 6; the part_008 normal is the diagonal
(3/5, 4/5). -/
theorem C2_part008_normal_spec_witness :
    Part008.getSurfaceInfo sqrtA ⟨⟨0, 0⟩, 2, 2⟩ 4 5 6
      = some { height := 5, normal := ⟨3 / 5, 4 / 5⟩, penetrationDepth := 6 - 5,
               isVertical := abs ((3 : ℚ) / 5) > abs ((4 : ℚ) / 5), allowGrounded := true } := by
  exact ((C2_part008_normal_spec sqrtA ⟨⟨0, 0⟩, 2, 2⟩ 4 5 6 3 4 5
    (by norm_num [closestPoint]) (by norm_num [closestPoint])
    (by norm_num [sqrtA_25]) (by norm_num [SqrtOn, sqrtA_25])
    (by norm_num)).1 (by norm_num)).1

theorem clamp_shift (lo hi v k : ℚ) (hlohi : lo ≤ hi) (hk : 0 < k) :
    max lo (min (max lo (min v hi) + (v - max lo (min v hi)) * k) hi) = max lo (min v hi) := by
  rcases le_total v lo with hvlo | hlov
  · have h1 : min v hi = v := min_eq_left (le_trans hvlo hlohi)
    have h2 : max lo v = lo := max_eq_left hvlo
    rw [h1, h2]
    have h3 : lo + (v - lo) * k ≤ lo := by nlinarith
    rw [min_eq_left (le_trans h3 hlohi), max_eq_left h3]
  · rcases le_total v hi with hvhi | hhiv
    · rw [min_eq_left hvhi, max_eq_right hlov]
      rw [show v + (v - v) * k = v from by ring]
      rw [min_eq_left hvhi, max_eq_right hlov]
    · have h1 : min v hi = hi := min_eq_right hhiv
      have h2 : max lo hi = hi := max_eq_right hlohi
      rw [h1, h2]
      have h3 : hi ≤ hi + (v - hi) * k := by nlinarith
      rw [min_eq_right h3, max_eq_right hlohi]

/-- C6 amended: for the part_008 variant of the obstacle surface query (with
nondegenerate contact distance at least 0.0001), the returned normal is unit
length and translating the query center by normal times penetrationDepth
lands exactly at distance queryRadius from the box (squared distance equals
the squared radius); the obstacles.js variant violates the exact-removal half
of the invariant at corner contacts because its normal is snapped to a face
axis (see the counterexample). -/
theorem C6_invariant_amended (s : ℚ → ℚ) (o : Obstacle) (px py pr dx dy cd : ℚ)
    (hw : 0 ≤ o.width) (hh : 0 ≤ o.height) (hr : 0 < pr)
    (hdx : dx = px - (closestPoint o px py).x)
    (hdy : dy = py - (closestPoint o px py).y)
    (hcd : cd = s (dx * dx + dy * dy))
    (hs : SqrtOn s (dx * dx + dy * dy))
    (hge : 1/10000 ≤ cd)
    (hcol : ¬ (cd > pr + 1/10)) :
    ∃ si, Part008.getSurfaceInfo s o px py pr = some si
      ∧ si.normal.x * si.normal.x + si.normal.y * si.normal.y = 1
      ∧ boxDistSq o ((⟨px, py⟩ : Vec2) + si.normal.smul si.penetrationDepth) = pr * pr := by
  have hcdpos : (0 : ℚ) < cd := lt_of_lt_of_le (by norm_num) hge
  have hne : cd ≠ 0 := ne_of_gt hcdpos
  have hsq : cd * cd = dx * dx + dy * dy := hcd ▸ hs.2
  have heq : Part008.getSurfaceInfo s o px py pr
      = some { height := cd, normal := ⟨dx / cd, dy / cd⟩,
               penetrationDepth := pr - cd,
               isVertical := abs (dx / cd) > abs (dy / cd), allowGrounded := true } := by
    unfold Part008.getSurfaceInfo
    dsimp only
    rw [← hdx, ← hdy, ← hcd]
    rw [if_neg hcol, if_neg (not_lt.mpr (by linarith : (1:ℚ)/10000 ≤ cd))]
  refine ⟨_, heq, ?_, ?_⟩
  · field_simp
    linarith [hsq]
  · -- corrected center
    have hk : (0 : ℚ) < pr / cd := div_pos hr hcdpos
    have hqx : ((⟨px, py⟩ : Vec2) + (⟨dx / cd, dy / cd⟩ : Vec2).smul (pr - cd)).x
        = (closestPoint o px py).x + (px - (closestPoint o px py).x) * (pr / cd) := by
      simp only [Vec2.add_def, Vec2.smul]
      rw [hdx]
      field_simp
      ring
    have hqy : ((⟨px, py⟩ : Vec2) + (⟨dx / cd, dy / cd⟩ : Vec2).smul (pr - cd)).y
        = (closestPoint o px py).y + (py - (closestPoint o px py).y) * (pr / cd) := by
      simp only [Vec2.add_def, Vec2.smul]
      rw [hdy]
      field_simp
      ring
    have hclx : (closestPoint o px py).x
        = max (o.position.x - o.width / 2) (min px (o.position.x + o.width / 2)) := rfl
    have hcly : (closestPoint o px py).y
        = max (o.position.y - o.height / 2) (min py (o.position.y + o.height / 2)) := rfl
    have hccx : (closestPoint o ((⟨px, py⟩ : Vec2) + (⟨dx / cd, dy / cd⟩ : Vec2).smul (pr - cd)).x
          ((⟨px, py⟩ : Vec2) + (⟨dx / cd, dy / cd⟩ : Vec2).smul (pr - cd)).y).x
        = (closestPoint o px py).x := by
      show max (o.position.x - o.width / 2)
          (min ((⟨px, py⟩ : Vec2) + (⟨dx / cd, dy / cd⟩ : Vec2).smul (pr - cd)).x
            (o.position.x + o.width / 2)) = _
      rw [hqx, hclx]
      exact clamp_shift _ _ px (pr / cd) (by linarith) hk
    have hccy : (closestPoint o ((⟨px, py⟩ : Vec2) + (⟨dx / cd, dy / cd⟩ : Vec2).smul (pr - cd)).x
          ((⟨px, py⟩ : Vec2) + (⟨dx / cd, dy / cd⟩ : Vec2).smul (pr - cd)).y).y
        = (closestPoint o px py).y := by
      show max (o.position.y - o.height / 2)
          (min ((⟨px, py⟩ : Vec2) + (⟨dx / cd, dy / cd⟩ : Vec2).smul (pr - cd)).y
            (o.position.y + o.height / 2)) = _
      rw [hqy, hcly]
      exact clamp_shift _ _ py (pr / cd) (by linarith) hk
    show boxDistSq o ((⟨px, py⟩ : Vec2) + (⟨dx / cd, dy / cd⟩ : Vec2).smul (pr - cd)) = pr * pr
    unfold boxDistSq
    dsimp only
    rw [hccx, hccy, hqx, hqy]
    have hx2 : (closestPoint o px py).x + (px - (closestPoint o px py).x) * (pr / cd)
        - (closestPoint o px py).x = dx * (pr / cd) := by
      rw [hdx]; ring
    have hy2 : (closestPoint o px py).y + (py - (closestPoint o px py).y) * (pr / cd)
        - (closestPoint o px py).y = dy * (pr / cd) := by
      rw [hdy]; ring
    rw [hx2, hy2]
    have : dx * (pr / cd) * (dx * (pr / cd)) + dy * (pr / cd) * (dy * (pr / cd))
        = (dx * dx + dy * dy) * (pr / cd) * (pr / cd) := by ring
    rw [this, ← hsq]
    field_simp
    ring

/-- Witness for C6 at the concrete corner query (4,5) with radius 6 against
the box of half extent 1 at the origin. -/
theorem C6_invariant_amended_witness :
    ∃ si, Part008.getSurfaceInfo sqrtA ⟨⟨0, 0⟩, 2, 2⟩ 4 5 6 = some si
      ∧ si.normal.x * si.normal.x + si.normal.y * si.normal.y = 1
      ∧ boxDistSq ⟨⟨0, 0⟩, 2, 2⟩ ((⟨4, 5⟩ : Vec2) + si.normal.smul si.penetrationDepth)
          = 6 * 6 := by
  exact C6_invariant_amended sqrtA ⟨⟨0, 0⟩, 2, 2⟩ 4 5 6 3 4 5
    (by norm_num) (by norm_num) (by norm_num)
    (by norm_num [closestPoint]) (by norm_num [closestPoint])
    (by norm_num [sqrtA_25]) (by norm_num [SqrtOn, sqrtA_25])
    (by norm_num) (by norm_num)

theorem findAux_spec (s : ℚ → ℚ) (x y radius : ℚ) :
    ∀ (obstacles : List Obstacle) (acc : Option SurfaceInfo),
      (Obstacles.findAux s x y radius obstacles acc = none ↔
        (acc = none ∧ ∀ o ∈ obstacles, Obstacles.getSurfaceInfo s o x y radius = none))
      ∧ (∀ si, Obstacles.findAux s x y radius obstacles acc = some si →
          ((acc = some si ∨ ∃ o ∈ obstacles, Obstacles.getSurfaceInfo s o x y radius = some si)
           ∧ (∀ b, acc = some b → si.penetrationDepth ≤ b.penetrationDepth)
           ∧ (∀ o ∈ obstacles, ∀ si2, Obstacles.getSurfaceInfo s o x y radius = some si2 →
                si.penetrationDepth ≤ si2.penetrationDepth))) := by
  intro obstacles
  induction obstacles with
  | nil =>
      intro acc
      constructor
      · simp [Obstacles.findAux]
      · intro si hsi
        simp [Obstacles.findAux] at hsi
        subst hsi
        refine ⟨Or.inl rfl, ?_, ?_⟩
        · intro b hb
          rw [Option.some_inj] at hb
          subst hb
          exact le_refl _
        · intro o ho
          exact absurd ho (List.not_mem_nil o)
  | cons o rest ih =>
      intro acc
      have hunf : Obstacles.findAux s x y radius (o :: rest) acc
          = Obstacles.findAux s x y radius rest
              (match Obstacles.getSurfaceInfo s o x y radius, acc with
                | some si, none => some si
                | some si, some b =>
                    if si.penetrationDepth < b.penetrationDepth then some si else some b
                | none, b => b) := rfl
      cases hq : Obstacles.getSurfaceInfo s o x y radius with
      | none =>
          rw [hunf, hq]
          constructor
          · rw [(ih acc).1]
            constructor
            · rintro ⟨h1, h2⟩
              refine ⟨h1, ?_⟩
              intro o2 ho2
              rcases List.mem_cons.mp ho2 with rfl | ho2
              · exact hq
              · exact h2 o2 ho2
            · rintro ⟨h1, h2⟩
              exact ⟨h1, fun o2 ho2 => h2 o2 (List.mem_cons_of_mem o ho2)⟩
          · intro si hsi
            obtain ⟨hmem, haccle, hrestle⟩ := (ih acc).2 si hsi
            refine ⟨?_, haccle, ?_⟩
            · rcases hmem with h | ⟨o2, ho2, h⟩
              · exact Or.inl h
              · exact Or.inr ⟨o2, List.mem_cons_of_mem o ho2, h⟩
            · intro o2 ho2 si2 hsi2
              rcases List.mem_cons.mp ho2 with rfl | ho2
              · rw [hq] at hsi2; exact absurd hsi2 (by simp)
              · exact hrestle o2 ho2 si2 hsi2
      | some si0 =>
          cases acc with
          | none =>
              rw [hunf, hq]
              constructor
              · rw [(ih (some si0)).1]
                constructor
                · rintro ⟨h1, _⟩
                  exact absurd h1 (by simp)
                · rintro ⟨_, h2⟩
                  exact absurd (h2 o (List.mem_cons_self o rest)) (by simp [hq])
              · intro si hsi
                obtain ⟨hmem, haccle, hrestle⟩ := (ih (some si0)).2 si hsi
                refine ⟨?_, ?_, ?_⟩
                · rcases hmem with h | ⟨o2, ho2, h⟩
                  · rw [Option.some_inj] at h
                    exact Or.inr ⟨o, List.mem_cons_self o rest, h ▸ hq⟩
                  · exact Or.inr ⟨o2, List.mem_cons_of_mem o ho2, h⟩
                · intro b hb
                  exact absurd hb (by simp)
                · intro o2 ho2 si2 hsi2
                  rcases List.mem_cons.mp ho2 with rfl | ho2
                  · rw [hq] at hsi2
                    rw [Option.some_inj] at hsi2
                    subst hsi2
                    exact haccle si0 rfl
                  · exact hrestle o2 ho2 si2 hsi2
          | some b =>
              by_cases hlt : si0.penetrationDepth < b.penetrationDepth
              · rw [hunf, hq]
                simp only [if_pos hlt]
                constructor
                · rw [(ih (some si0)).1]
                  constructor
                  · rintro ⟨h1, _⟩
                    exact absurd h1 (by simp)
                  · rintro ⟨h1, _⟩
                    exact absurd h1 (by simp)
                · intro si hsi
                  obtain ⟨hmem, haccle, hrestle⟩ := (ih (some si0)).2 si hsi
                  have hle0 : si.penetrationDepth ≤ si0.penetrationDepth := haccle si0 rfl
                  refine ⟨?_, ?_, ?_⟩
                  · rcases hmem with h | ⟨o2, ho2, h⟩
                    · rw [Option.some_inj] at h
                      exact Or.inr ⟨o, List.mem_cons_self o rest, h ▸ hq⟩
                    · exact Or.inr ⟨o2, List.mem_cons_of_mem o ho2, h⟩
                  · intro b2 hb2
                    rw [Option.some_inj] at hb2
                    subst hb2
                    exact le_trans hle0 (le_of_lt hlt)
                  · intro o2 ho2 si2 hsi2
                    rcases List.mem_cons.mp ho2 with rfl | ho2
                    · rw [hq] at hsi2
                      rw [Option.some_inj] at hsi2
                      subst hsi2
                      exact hle0
                    · exact hrestle o2 ho2 si2 hsi2
              · rw [hunf, hq]
                simp only [if_neg hlt]
                constructor
                · rw [(ih (some b)).1]
                  constructor
                  · rintro ⟨h1, _⟩
                    exact absurd h1 (by simp)
                  · rintro ⟨h1, _⟩
                    exact absurd h1 (by simp)
                · intro si hsi
                  obtain ⟨hmem, haccle, hrestle⟩ := (ih (some b)).2 si hsi
                  have hleb : si.penetrationDepth ≤ b.penetrationDepth := haccle b rfl
                  refine ⟨?_, ?_, ?_⟩
                  · rcases hmem with h | ⟨o2, ho2, h⟩
                    · exact Or.inl h
                    · exact Or.inr ⟨o2, List.mem_cons_of_mem o ho2, h⟩
                  · intro b2 hb2
                    rw [Option.some_inj] at hb2
                    subst hb2
                    exact hleb
                  · intro o2 ho2 si2 hsi2
                    rcases List.mem_cons.mp ho2 with rfl | ho2
                    · rw [hq] at hsi2
                      rw [Option.some_inj] at hsi2
                      subst hsi2
                      exact le_trans hleb (not_lt.mp hlt)
                    · exact hrestle o2 ho2 si2 hsi2

/-- C7: findObstacleSurfaceAt returns none exactly when no obstacle surface
query collides, and otherwise returns the surface result of some colliding
obstacle whose penetration depth is minimal among all colliding obstacles
(the closest-only aggregation policy). -/
theorem C7_findObstacleSurfaceAt_spec (s : ℚ → ℚ) (obstacles : List Obstacle) (x y radius : ℚ) :
    (Obstacles.findObstacleSurfaceAt s obstacles x y radius = none
       ↔ ∀ o ∈ obstacles, Obstacles.getSurfaceInfo s o x y radius = none)
    ∧ ∀ si, Obstacles.findObstacleSurfaceAt s obstacles x y radius = some si →
        (∃ o ∈ obstacles, Obstacles.getSurfaceInfo s o x y radius = some si)
        ∧ ∀ o ∈ obstacles, ∀ si2, Obstacles.getSurfaceInfo s o x y radius = some si2 →
            si.penetrationDepth ≤ si2.penetrationDepth := by
  have h := findAux_spec s x y radius obstacles none
  constructor
  · rw [show Obstacles.findObstacleSurfaceAt s obstacles x y radius
        = Obstacles.findAux s x y radius obstacles none from rfl]
    rw [h.1]
    simp
  · intro si hsi
    obtain ⟨hmem, _, hle⟩ := h.2 si hsi
    refine ⟨?_, hle⟩
    rcases hmem with hacc | hmem
    · exact absurd hacc (by simp)
    · exact hmem

/-- Witness for C7: of two boxes overlapping the query disc at (0,0) with
radius 10, the one with the smaller penetration depth (-1, within the
contact tolerance band) is returned, and it is a genuine query result of the
first box. -/
theorem C7_findObstacleSurfaceAt_spec_witness :
    ∃ o ∈ ([⟨⟨12, 0⟩, 2, 2⟩, ⟨⟨6, 0⟩, 2, 2⟩] : List Obstacle),
      Obstacles.getSurfaceInfo sqrtA o 0 0 10
        = some { height := -11, normal := ⟨-1, 0⟩, penetrationDepth := -1,
                 isVertical := true, allowGrounded := true } := by
  exact ((C7_findObstacleSurfaceAt_spec sqrtA [⟨⟨12, 0⟩, 2, 2⟩, ⟨⟨6, 0⟩, 2, 2⟩] 0 0 10).2
    ⟨-11, ⟨-1, 0⟩, -1, true, true⟩
    (by norm_num [Obstacles.findObstacleSurfaceAt, Obstacles.findAux,
      Obstacles.getSurfaceInfo, closestPoint, msign, sqrtA_121, sqrtA_25])).1

theorem chain_getD_lt : ∀ (l : List Vec2), List.Chain' (fun a b => a.x < b.x) l →
    ∀ j k, j < k → k < l.length → (l.getD j ⟨0, 0⟩).x < (l.getD k ⟨0, 0⟩).x := by
  intro l
  induction l with
  | nil =>
      intro _ j k _ hk
      simp at hk
  | cons q tl ih =>
      intro hl j k hjk hk
      have htl : List.Chain' (fun a b => a.x < b.x) tl := hl.tail
      cases k with
      | zero => omega
      | succ k' =>
          have hk' : k' < tl.length := by simpa using hk
          cases j with
          | zero =>
              simp only [List.getD_cons_zero, List.getD_cons_succ]
              cases tl with
              | nil => simp at hk'
              | cons r tr =>
                  have hqr : q.x < r.x := (List.chain'_cons.mp hl).1
                  cases k' with
                  | zero => simpa using hqr
                  | succ k'' =>
                      have htail := ih htl 0 (k'' + 1) (by omega) hk'
                      simp only [List.getD_cons_zero] at htail
                      exact lt_trans hqr htail
          | succ j' =>
              simp only [List.getD_cons_succ]
              exact ih htl j' k' (by omega) hk'

theorem chain_getD_le (l : List Vec2) (hl : List.Chain' (fun a b => a.x < b.x) l)
    (j k : ℕ) (hjk : j ≤ k) (hk : k < l.length) :
    (l.getD j ⟨0, 0⟩).x ≤ (l.getD k ⟨0, 0⟩).x := by
  rcases Nat.eq_or_lt_of_le hjk with rfl | hlt
  · exact le_refl _
  · exact le_of_lt (chain_getD_lt l hl j k hlt hk)

theorem findSegmentIdx_eq : ∀ (l : List Vec2) (x : ℚ),
    List.Chain' (fun a b => a.x < b.x) l →
    ∀ i, i + 1 < l.length → (l.getD i ⟨0, 0⟩).x ≤ x → x < (l.getD (i + 1) ⟨0, 0⟩).x →
    Terrain.findSegmentIdx x l = some i := by
  intro l
  induction l with
  | nil =>
      intro x _ i hi
      simp at hi
  | cons p1 tl ih =>
      intro x hl i hi h1 h2
      cases tl with
      | nil => simp at hi
      | cons p2 rest =>
          cases i with
          | zero =>
              have hc : p1.x ≤ x ∧ x < p2.x := ⟨by simpa using h1, by simpa using h2⟩
              unfold Terrain.findSegmentIdx
              rw [if_pos hc]
          | succ i' =>
              have hi' : i' + 1 < (p2 :: rest).length := by simpa using hi
              have h1' : ((p2 :: rest).getD i' ⟨0, 0⟩).x ≤ x := by simpa using h1
              have h2' : x < ((p2 :: rest).getD (i' + 1) ⟨0, 0⟩).x := by simpa using h2
              have htl : List.Chain' (fun a b => a.x < b.x) (p2 :: rest) := hl.tail
              have hp2 : p2.x ≤ ((p2 :: rest).getD i' ⟨0, 0⟩).x := by
                have := chain_getD_le (p2 :: rest) htl 0 i' (Nat.zero_le _) (by omega)
                simpa using this
              have hcond : ¬ (p1.x ≤ x ∧ x < p2.x) := by
                intro hc
                exact absurd hc.2 (not_lt.mpr (le_trans hp2 h1'))
              unfold Terrain.findSegmentIdx
              rw [if_neg hcond, ih x htl i' hi' h1' h2']
              rfl

/-- C9 amended: for x with samples[i].x <= x < samples[i+1].x (strictly
increasing samples), the terrain query interpolates linearly over that
bracketing segment and, given an exact square root for the segment length,
returns the perpendicular upward unit normal; for x strictly before the
first sample or strictly after the last it returns that edge sample's height
with normal (0,1).  At x exactly equal to the last sample's x none of these
branches applies: the scan finds no bracket, defaults to segment 0 and
extrapolates the first segment (see the counterexample), which is the one
deviation forcing this amendment. -/
theorem C9_terrain_interp_amended (s : ℚ → ℚ) (pts : List Vec2) (x : ℚ) (i : ℕ)
    (hchain : List.Chain' (fun a b => a.x < b.x) pts)
    (hi : i + 1 < pts.length)
    (h1 : (pts.getD i ⟨0, 0⟩).x ≤ x) (h2 : x < (pts.getD (i + 1) ⟨0, 0⟩).x) :
    (Terrain.getTerrainInfo s x pts
      = { height := (pts.getD i ⟨0, 0⟩).y
            + (x - (pts.getD i ⟨0, 0⟩).x)
                / ((pts.getD (i + 1) ⟨0, 0⟩).x - (pts.getD i ⟨0, 0⟩).x)
              * ((pts.getD (i + 1) ⟨0, 0⟩).y - (pts.getD i ⟨0, 0⟩).y),
          normal := Vec2.normalize s
            ⟨-((pts.getD (i + 1) ⟨0, 0⟩).y - (pts.getD i ⟨0, 0⟩).y),
             (pts.getD (i + 1) ⟨0, 0⟩).x - (pts.getD i ⟨0, 0⟩).x⟩ })
    ∧ (SqrtOn s (((pts.getD (i + 1) ⟨0, 0⟩).x - (pts.getD i ⟨0, 0⟩).x)
          * ((pts.getD (i + 1) ⟨0, 0⟩).x - (pts.getD i ⟨0, 0⟩).x)
        + ((pts.getD (i + 1) ⟨0, 0⟩).y - (pts.getD i ⟨0, 0⟩).y)
          * ((pts.getD (i + 1) ⟨0, 0⟩).y - (pts.getD i ⟨0, 0⟩).y)) →
        (Terrain.getTerrainInfo s x pts).normal.x * (Terrain.getTerrainInfo s x pts).normal.x
            + (Terrain.getTerrainInfo s x pts).normal.y * (Terrain.getTerrainInfo s x pts).normal.y
          = 1
        ∧ Vec2.dot (Terrain.getTerrainInfo s x pts).normal
            ⟨(pts.getD (i + 1) ⟨0, 0⟩).x - (pts.getD i ⟨0, 0⟩).x,
             (pts.getD (i + 1) ⟨0, 0⟩).y - (pts.getD i ⟨0, 0⟩).y⟩ = 0
        ∧ 0 < (Terrain.getTerrainInfo s x pts).normal.y)
    ∧ (∀ z, z < (pts.getD 0 ⟨0, 0⟩).x →
        Terrain.getTerrainInfo s z pts
          = { height := (pts.getD 0 ⟨0, 0⟩).y, normal := ⟨0, 1⟩ })
    ∧ (∀ z, (pts.getD (pts.length - 1) ⟨0, 0⟩).x < z →
        Terrain.getTerrainInfo s z pts
          = { height := (pts.getD (pts.length - 1) ⟨0, 0⟩).y, normal := ⟨0, 1⟩ }) := by
  have hlen : 0 < pts.length := by omega
  have hdx : 0 < (pts.getD (i + 1) ⟨0, 0⟩).x - (pts.getD i ⟨0, 0⟩).x := by
    have := chain_getD_lt pts hchain i (i + 1) (by omega) hi
    linarith
  have h0 : ¬ x < (pts.getD 0 ⟨0, 0⟩).x := by
    have := chain_getD_le pts hchain 0 i (Nat.zero_le _) (by omega)
    exact not_lt.mpr (le_trans this h1)
  have hlast : ¬ x > (pts.getD (pts.length - 1) ⟨0, 0⟩).x := by
    have hle : (pts.getD (i + 1) ⟨0, 0⟩).x ≤ (pts.getD (pts.length - 1) ⟨0, 0⟩).x :=
      chain_getD_le pts hchain (i + 1) (pts.length - 1) (by omega) (by omega)
    exact not_lt.mpr (le_of_lt (lt_of_lt_of_le h2 hle))
  have hseg : Terrain.findSegmentIdx x pts = some i :=
    findSegmentIdx_eq pts x hchain i hi h1 h2
  have hmain : Terrain.getTerrainInfo s x pts
      = { height := (pts.getD i ⟨0, 0⟩).y
            + (x - (pts.getD i ⟨0, 0⟩).x)
                / ((pts.getD (i + 1) ⟨0, 0⟩).x - (pts.getD i ⟨0, 0⟩).x)
              * ((pts.getD (i + 1) ⟨0, 0⟩).y - (pts.getD i ⟨0, 0⟩).y),
          normal := Vec2.normalize s
            ⟨-((pts.getD (i + 1) ⟨0, 0⟩).y - (pts.getD i ⟨0, 0⟩).y),
             (pts.getD (i + 1) ⟨0, 0⟩).x - (pts.getD i ⟨0, 0⟩).x⟩ } := by
    unfold Terrain.getTerrainInfo
    dsimp only
    rw [if_neg h0, if_neg hlast, hseg]
    rfl
  refine ⟨hmain, ?_, ?_, ?_⟩
  · intro hs
    set dx := (pts.getD (i + 1) ⟨0, 0⟩).x - (pts.getD i ⟨0, 0⟩).x with hdxd
    set dy := (pts.getD (i + 1) ⟨0, 0⟩).y - (pts.getD i ⟨0, 0⟩).y with hdyd
    have harg : -dy * -dy + dx * dx = dx * dx + dy * dy := by ring
    have hL : Vec2.length s ⟨-dy, dx⟩ = s (dx * dx + dy * dy) := by
      unfold Vec2.length
      dsimp only
      rw [harg]
    have hLnn : 0 ≤ s (dx * dx + dy * dy) := hs.1
    have hLsq : s (dx * dx + dy * dy) * s (dx * dx + dy * dy) = dx * dx + dy * dy := hs.2
    have hLne : s (dx * dx + dy * dy) ≠ 0 := by
      intro h0'
      rw [h0'] at hLsq
      nlinarith
    have hLpos : 0 < s (dx * dx + dy * dy) := lt_of_le_of_ne hLnn (Ne.symm hLne)
    have hnorm : Vec2.normalize s ⟨-dy, dx⟩
        = ⟨-dy / s (dx * dx + dy * dy), dx / s (dx * dx + dy * dy)⟩ := by
      unfold Vec2.normalize
      dsimp only
      rw [hL, if_neg hLne]
    rw [hmain]
    dsimp only
    rw [hnorm]
    refine ⟨?_, ?_, ?_⟩
    · field_simp
      linarith [hLsq]
    · unfold Vec2.dot
      dsimp only
      field_simp
      ring
    · dsimp only
      exact div_pos hdx hLpos
  · intro z hz
    unfold Terrain.getTerrainInfo
    dsimp only
    rw [if_pos hz]
  · intro z hz
    have h0' : ¬ z < (pts.getD 0 ⟨0, 0⟩).x := by
      have := chain_getD_le pts hchain 0 (pts.length - 1) (Nat.zero_le _) (by omega)
      exact not_lt.mpr (le_of_lt (lt_of_le_of_lt this hz))
    unfold Terrain.getTerrainInfo
    dsimp only
    rw [if_neg h0', if_pos hz]

/-- Witness for C9: on samples (0,0), (4,3), (8,3) the query at x = 2
interpolates the first segment to height 3/2. -/
theorem C9_terrain_interp_amended_witness :
    (Terrain.getTerrainInfo sqrtA 2 [⟨0, 0⟩, ⟨4, 3⟩, ⟨8, 3⟩]).height = 3/2 := by
  have h := (C9_terrain_interp_amended sqrtA [⟨0, 0⟩, ⟨4, 3⟩, ⟨8, 3⟩] 2 0
    (by norm_num [List.chain'_cons]) (by norm_num)
    (by norm_num) (by norm_num)).1
  rw [h]
  norm_num
